import Mathlib

/-!
# Face Mask Detection backend — verification of the specification

Shallow embedding of the backend of the Face_Mask_Detection repository
(`backend/detection_manager.py`, `backend/websocket_manager.py`,
`backend/video_processor.py`, `backend/face_detection.py`) together with
proofs settling the specification's claims about it.

Modelling conventions:
* Python floats are modelled as exact rationals (`Rat`); `round(x, n)` is
  modelled by `roundTo n`.
* Nondeterministic inputs of the code (`uuid.uuid4()`, `time.time()`,
  `datetime.utcnow()`, camera reads, classifier randomness) are passed in
  explicitly as parameters, one per call site.
* Stateful methods become pure functions `State → args → State × result`.
* Best-effort effects whose failures the code swallows (MongoDB insert,
  logging) have no observable effect on the state and are elided.
-/

namespace FaceMask

/-! ## Data model (`backend/detection_manager.py`) -/

/-- A raw detection as handed to `DetectionManager.process_detections`:
the fields the alert predicate reads (`hasMask`, `confidence`). -/
structure Detection where
  hasMask : Bool
  confidence : Rat
deriving DecidableEq, Repr

/-- The nondeterministic inputs consumed while processing one detection:
`pid` models the fresh `uuid.uuid4()` id, `tstamp` the
`datetime.utcnow().isoformat()` ingestion timestamp, and `nowMs` the value
of `time.time() * 1000` read in the alert branch. -/
structure IngestInfo where
  pid : Nat
  tstamp : Nat
  nowMs : Rat
deriving DecidableEq, Repr

/-- A processed detection, as stored in the rolling history and returned by
`process_detections`: the raw fields plus id, timestamp and alert flag. -/
structure ProcDetection where
  pid : Nat
  tstamp : Nat
  hasMask : Bool
  confidence : Rat
  alertTriggered : Bool
deriving DecidableEq, Repr

/-- The `settings` dict of `DetectionManager`. -/
structure Settings where
  visualAlerts : Bool
  soundAlerts : Bool
  confidenceThreshold : Rat
  alertCooldown : Rat
deriving DecidableEq, Repr

/-- Initial settings from `DetectionManager.__init__`
(threshold `0.8`, cooldown `5000` ms). -/
def defaultSettings : Settings :=
  { visualAlerts := true
    soundAlerts := true
    confidenceThreshold := 8/10
    alertCooldown := 5000 }

/-- The `statistics` dict of `DetectionManager` (the `lastUpdate` wall-clock
string is elided: no claim mentions it). -/
structure Statistics where
  totalDetections : Nat
  maskedCount : Nat
  unmaskedCount : Nat
  complianceRate : Rat
  avgConfidence : Rat
  activeAlerts : Nat
deriving DecidableEq, Repr

/-- Initial statistics from `DetectionManager.__init__` (all zero). -/
def initialStatistics : Statistics :=
  { totalDetections := 0
    maskedCount := 0
    unmaskedCount := 0
    complianceRate := 0
    avgConfidence := 0
    activeAlerts := 0 }

/-- The `last_alert_time` dict: detection id ↦ last alert time (ms).
Lookup is `dict.get(id, 0)`; setting a key shadows earlier entries. -/
def AlertMap : Type := List (Nat × Rat)

/-- `last_alert_time.get(id, 0)`. -/
def AlertMap.getD (m : AlertMap) (k : Nat) : Rat :=
  match List.find? (fun p => p.1 == k) m with
  | some p => p.2
  | none => 0

/-- `last_alert_time[id] = v`. -/
def AlertMap.set (m : AlertMap) (k : Nat) (v : Rat) : AlertMap :=
  (k, v) :: m

/-- `collections.deque(maxlen := cap).append`: append on the right and, if
the capacity is exceeded, evict from the left. -/
def dequeAppend {α : Type} (cap : Nat) (xs : List α) (x : α) : List α :=
  let ys := xs ++ [x]
  if cap < ys.length then ys.drop (ys.length - cap) else ys

/-- The in-memory state of a `DetectionManager`: rolling history
(`detection_history`, a `deque(maxlen=1000)` kept oldest-first),
statistics, settings and the per-id alert-time map. -/
structure ManagerState where
  history : List ProcDetection
  statistics : Statistics
  settings : Settings
  lastAlertTime : AlertMap

/-- `DetectionManager.__init__`. -/
def initialState : ManagerState :=
  { history := []
    statistics := initialStatistics
    settings := defaultSettings
    lastAlertTime := [] }

/-- `round(x, n)` on exact rationals: round to `n` decimal places
(ties rounded up; Python's float rounding is modelled only up to the
choice of tie-breaking, which no claim depends on). -/
def roundTo (n : Nat) (x : Rat) : Rat :=
  (Rat.floor (x * 10 ^ n + 1/2) : Rat) / 10 ^ n

/-- `DetectionManager.update_statistics`: recompute the statistics from the
full rolling history; when the history is empty, return early leaving the
statistics untouched. -/
def update_statistics (s : ManagerState) : ManagerState :=
  let total := s.history.length
  if total = 0 then s
  else
    let masked := (s.history.filter (fun d => d.hasMask)).length
    let unmasked := total - masked
    let compliance := ((masked : Rat) / (total : Rat)) * 100
    let avgConf := (s.history.map (fun d => d.confidence)).sum / (total : Rat)
    { s with statistics :=
        { s.statistics with
            totalDetections := total
            maskedCount := masked
            unmaskedCount := unmasked
            complianceRate := roundTo 2 compliance
            avgConfidence := roundTo 3 avgConf } }

/-- The per-detection body of `DetectionManager.process_detections`
(lines 37–56): assign id and timestamp, initialise `alertTriggered=False`,
trigger an alert when `not hasMask and confidence >= threshold` and the
cooldown keyed by the id has elapsed (incrementing `activeAlerts` and
recording the alert time), and append a copy to the history. -/
def processOne (s : ManagerState) (d : Detection) (info : IngestInfo) :
    ManagerState × ProcDetection :=
  let base : ProcDetection :=
    { pid := info.pid
      tstamp := info.tstamp
      hasMask := d.hasMask
      confidence := d.confidence
      alertTriggered := false }
  if d.hasMask = false ∧ s.settings.confidenceThreshold ≤ d.confidence ∧
      s.settings.alertCooldown ≤ info.nowMs - s.lastAlertTime.getD info.pid then
    let p := { base with alertTriggered := true }
    ({ s with
        lastAlertTime := s.lastAlertTime.set info.pid info.nowMs
        statistics := { s.statistics with activeAlerts := s.statistics.activeAlerts + 1 }
        history := dequeAppend 1000 s.history p }, p)
  else
    ({ s with history := dequeAppend 1000 s.history base }, base)

/-- The loop of `process_detections` over a batch, threading the state and
collecting the processed detections in order. -/
def processList (s : ManagerState) :
    List (Detection × IngestInfo) → ManagerState × List ProcDetection
  | [] => (s, [])
  | (d, info) :: rest =>
      let r := processOne s d info
      let rs := processList r.1 rest
      (rs.1, r.2 :: rs.2)

/-- `DetectionManager.process_detections`: process the batch, then
recompute the statistics, and return the processed batch. (The per-record
MongoDB insert is best-effort and leaves the in-memory state unchanged.) -/
def process_detections (s : ManagerState) (batch : List (Detection × IngestInfo)) :
    ManagerState × List ProcDetection :=
  let r := processList s batch
  (update_statistics r.1, r.2)

/-- A sequence of `process_detections` calls (state only). -/
def ingestAll (s : ManagerState) (batches : List (List (Detection × IngestInfo))) :
    ManagerState :=
  batches.foldl (fun st b => (process_detections st b).1) s

/-- Python list slicing `xs[start:]`, including the negative-index
convention: a negative `start` counts from the right, and the normalised
index is clamped into `[0, len(xs)]`. -/
def pySliceFrom {α : Type} (xs : List α) (start : Int) : List α :=
  let n : Int := xs.length
  let i := if start < 0 then start + n else start
  xs.drop (max 0 (min i n)).toNat

/-- `DetectionManager.get_detection_history`:
`history[-limit:] if limit < len(history) else history`.  The `limit`
argument is a Python `int`, so it is modelled as `Int`. -/
def get_detection_history (s : ManagerState) (limit : Int) : List ProcDetection :=
  let history := s.history
  if limit < (history.length : Int) then pySliceFrom history (-limit) else history

/-- `DetectionManager.get_statistics`: a copy of the statistics dict.
(Object identity of the copy is modelled separately in the heap model
below; at the value level a copy is the value itself.) -/
def get_statistics (s : ManagerState) : Statistics :=
  s.statistics

/-- `DetectionManager.get_settings`: a copy of the settings dict. -/
def get_settings (s : ManagerState) : Settings :=
  s.settings

/-- A partial settings mapping, as accepted by
`DetectionManager.update_settings`: `none` means the key is absent. -/
structure PartialSettings where
  visualAlerts : Option Bool
  soundAlerts : Option Bool
  confidenceThreshold : Option Rat
  alertCooldown : Option Rat
deriving DecidableEq, Repr

/-- `dict.update`: keys present in the argument override, absent keys keep
their prior values. -/
def Settings.merge (s : Settings) (p : PartialSettings) : Settings :=
  { visualAlerts := p.visualAlerts.getD s.visualAlerts
    soundAlerts := p.soundAlerts.getD s.soundAlerts
    confidenceThreshold := p.confidenceThreshold.getD s.confidenceThreshold
    alertCooldown := p.alertCooldown.getD s.alertCooldown }

/-- `DetectionManager.update_settings`: merge the partial mapping into the
settings and return a copy of the resulting full settings. -/
def update_settings (s : ManagerState) (p : PartialSettings) :
    ManagerState × Settings :=
  let s1 := { s with settings := s.settings.merge p }
  (s1, s1.settings)

/-- `DetectionManager.clear_alerts`. -/
def clear_alerts (s : ManagerState) : ManagerState :=
  { s with
      statistics := { s.statistics with activeAlerts := 0 }
      lastAlertTime := [] }

/-! ## Broadcaster (`backend/websocket_manager.py`) -/

/-- A subscriber channel, identified opaquely. -/
abbrev Conn := Nat

/-- The state of a `WebSocketManager`: the `active_connections` set. -/
structure WSState where
  active : Finset Conn
deriving DecidableEq

/-- `WebSocketManager.broadcast`: send the event to every active
connection; a connection whose send raises (`ConnectionClosed` or any
other exception — both are caught) is collected into `disconnected` and
discarded from the active set after the loop.  `sendOk c` models whether
the send to `c` succeeds; the returned `Finset` is the set of connections
that received the event.  No exception escapes: the function is total. -/
def broadcast (s : WSState) (sendOk : Conn → Bool) : WSState × Finset Conn :=
  if s.active = ∅ then (s, ∅)
  else
    let disconnected := s.active.filter (fun c => ¬ sendOk c = true)
    ({ active := s.active \ disconnected }, s.active.filter (fun c => sendOk c = true))

/-- `WebSocketManager.get_connection_count`. -/
def get_connection_count (s : WSState) : Nat :=
  s.active.card

/-! ## Video pipeline (`backend/video_processor.py`) -/

/-- One tick of `VideoProcessor.generate_frame_stream`, with the
environment it observes: the `is_running` flag at the loop head, the
`get_current_frame()` result (`none` while no frame has been published
into the shared state), and whether JPEG encoding succeeds (`cv2.imencode`
returning `ret=True` without raising).  Frames are opaque `Nat`s; a
yielded chunk is identified by the frame it wraps in the multipart
boundary framing. -/
structure StreamTick where
  running : Bool
  frame : Option Nat
  encodeOk : Bool
deriving DecidableEq, Repr

/-- `VideoProcessor.generate_frame_stream` over a trace of ticks: while
`is_running`, a tick yields a chunk exactly when a frame is available and
encodes successfully; the generator ends at the first tick with
`is_running` false. -/
def generate_frame_stream : List StreamTick → List Nat
  | [] => []
  | t :: rest =>
      if t.running then
        match t.frame with
        | some f =>
            if t.encodeOk then f :: generate_frame_stream rest
            else generate_frame_stream rest
        | none => generate_frame_stream rest
      else []

/-- The environment of one iteration of `VideoProcessor._capture_frames`:
whether `camera.read()` succeeds, and the batch
`detect_faces_and_masks` would return on this frame (detections opaque;
the per-detection timestamp assignment is elided — no claim reads it). -/
structure CapInput where
  readOk : Bool
  dets : List Nat
deriving DecidableEq, Repr

/-- The loop-carried state of `_capture_frames`: the frame counter and the
`current_detections` shared cell. -/
structure CapState where
  frameCount : Nat
  currentDetections : List Nat
deriving DecidableEq, Repr

/-- Observable effects of one iteration: whether a fresh inference pass
ran, whether the detection callback was invoked, and the batch drawn onto
the frame (`none` when the read failed and the iteration was skipped). -/
structure CapOutput where
  ranInference : Bool
  callbackInvoked : Bool
  overlay : Option (List Nat)
deriving DecidableEq, Repr

/-- `detection_interval = 5` in `_capture_frames`. -/
def detection_interval : Nat := 5

/-- One iteration of `VideoProcessor._capture_frames`: on a failed read,
`continue` without touching the counter; every `detection_interval`-th
frame, run inference, store the fresh batch and invoke the callback when
one is registered and the batch is non-empty; otherwise reuse the previous
batch for the overlay.  The counter increments after each processed
frame. -/
def captureStep (hasCallback : Bool) (s : CapState) (inp : CapInput) :
    CapState × CapOutput :=
  if inp.readOk = false then
    (s, { ranInference := false, callbackInvoked := false, overlay := none })
  else if s.frameCount % detection_interval = 0 then
    ({ frameCount := s.frameCount + 1, currentDetections := inp.dets },
     { ranInference := true
       callbackInvoked := hasCallback && !inp.dets.isEmpty
       overlay := some inp.dets })
  else
    ({ frameCount := s.frameCount + 1, currentDetections := s.currentDetections },
     { ranInference := false
       callbackInvoked := false
       overlay := some s.currentDetections })

/-! ## Classifier error handling (`backend/face_detection.py`) -/

/-- A face rectangle from the Haar cascade. -/
structure FaceBox where
  x : Int
  y : Int
  w : Int
  h : Int
deriving DecidableEq, Repr

/-- The outcome of the body of `FaceMaskDetector.predict_mask`'s `try`
block for one region: `error` models an exception anywhere inside it (a
preprocessing failure returning `None` lands on the same `(False, 0.0)`
result); `ok (b, c)` carries the label and raw confidence computed by the
(randomised) heuristic before the final clamp. -/
abbrev ClassifyOutcome := Except Unit (Bool × Rat)

/-- `FaceMaskDetector.predict_mask`: on any failure return the fallback
`(False, 0.0)`; on success clamp the confidence into `[0.6, 0.99]`
(`max(0.6, min(confidence, 0.99))`). -/
def predict_mask (raw : ClassifyOutcome) : Bool × Rat :=
  match raw with
  | .error _ => (false, 0)
  | .ok bc => (bc.1, max (6/10) (min bc.2 (99/100)))

/-- A detection record built by `detect_faces_and_masks`:
`id = f"face_{i}"` is modelled by the index `i`. -/
structure FaceDet where
  idx : Nat
  bbox : FaceBox
  hasMask : Bool
  confidence : Rat
deriving DecidableEq, Repr

/-- `FaceMaskDetector.detect_faces_and_masks`: for each located face (with
the outcome its classification attempt would produce), call
`predict_mask` and collect one record per face, in order. -/
def detect_faces_and_masks (faces : List (FaceBox × ClassifyOutcome)) :
    List FaceDet :=
  faces.enum.map fun p =>
    { idx := p.1
      bbox := p.2.1
      hasMask := (predict_mask p.2.2).1
      confidence := (predict_mask p.2.2).2 }

/-! ## Heap model of dict identity (`detection_manager.py`)

Python dicts are heap objects and `dict.copy()` is a *shallow* copy: a
fresh top-level dict whose slot values — including the reference to the
nested `bbox` dict of a detection — are shared with the original.  The
value-level embedding above cannot express aliasing, so the copy-semantics
claim is settled against this explicit-heap re-embedding of the same
methods. -/

/-- Contents of a `bbox` dict. -/
structure BBoxObj where
  x : Int
  y : Int
  w : Int
  h : Int
deriving DecidableEq, Repr

/-- Top-level slots of a detection dict.  `bboxRef` is the slot holding
the *reference* to the nested bbox dict. -/
structure DetObj where
  did : Nat
  tstamp : Nat
  bboxRef : Nat
  hasMask : Bool
  confidence : Rat
  alertTriggered : Bool
deriving DecidableEq, Repr

/-- Pointwise update of a type-indexed heap. -/
def setF {α : Type} (f : Nat → α) (a : Nat) (v : α) : Nat → α :=
  fun b => if b = a then v else f b

/-- The heap, restricted to the object classes this model tracks (bbox
dicts, detection dicts, statistics dicts, settings dicts), each addressed
by `Nat`.  `nextAddr` is the next fresh address; the counter is shared by
all classes, so a fresh allocation differs from every address allocated
before it. -/
structure Heap where
  bboxAt : Nat → BBoxObj
  detAt : Nat → DetObj
  statsAt : Nat → Statistics
  settingsAt : Nat → Settings
  nextAddr : Nat

/-- `DetectionManager` state with object identity: `self.statistics` and
`self.settings` are references to dicts on the heap, and
`self.detection_history` holds references to the (shallow) copies made at
ingestion. -/
structure HManagerState where
  heap : Heap
  historyRefs : List Nat
  statsRef : Nat
  settingsRef : Nat
  lastAlertTime : AlertMap

/-- The observable value of a detection dict: its top-level slots together
with the contents of the bbox dict it references. -/
def viewDet (s : HManagerState) (a : Nat) : DetObj × BBoxObj :=
  (s.heap.detAt a, s.heap.bboxAt (s.heap.detAt a).bboxRef)

/-- Consumer-side mutation of a statistics dict at address `a`. -/
def writeStats (s : HManagerState) (a : Nat) (v : Statistics) : HManagerState :=
  { s with heap := { s.heap with statsAt := setF s.heap.statsAt a v } }

/-- Consumer-side mutation of a settings dict at address `a`. -/
def writeSettings (s : HManagerState) (a : Nat) (v : Settings) : HManagerState :=
  { s with heap := { s.heap with settingsAt := setF s.heap.settingsAt a v } }

/-- Consumer-side mutation of the top-level slots of a detection dict at
address `a` (e.g. `d['confidence'] = ...` or rebinding `d['bbox']`). -/
def writeDet (s : HManagerState) (a : Nat) (v : DetObj) : HManagerState :=
  { s with heap := { s.heap with detAt := setF s.heap.detAt a v } }

/-- Consumer-side mutation of a bbox dict at address `a`
(e.g. `d['bbox']['x'] = ...`). -/
def writeBbox (s : HManagerState) (a : Nat) (v : BBoxObj) : HManagerState :=
  { s with heap := { s.heap with bboxAt := setF s.heap.bboxAt a v } }

/-- `DetectionManager.get_statistics` on the heap:
`self.statistics.copy()` allocates a fresh dict with the same (flat)
contents and returns its address. -/
def get_statisticsH (s : HManagerState) : HManagerState × Nat :=
  let a := s.heap.nextAddr
  ({ s with heap := { s.heap with
      statsAt := setF s.heap.statsAt a (s.heap.statsAt s.statsRef)
      nextAddr := s.heap.nextAddr + 1 } }, a)

/-- `DetectionManager.get_settings` on the heap: `self.settings.copy()`. -/
def get_settingsH (s : HManagerState) : HManagerState × Nat :=
  let a := s.heap.nextAddr
  ({ s with heap := { s.heap with
      settingsAt := setF s.heap.settingsAt a (s.heap.settingsAt s.settingsRef)
      nextAddr := s.heap.nextAddr + 1 } }, a)

/-- The per-detection body of `process_detections` on the heap: mutate the
*input* dict at `r` in place (id, timestamp, alert flag), run the alert
branch against the settings dict, append `detection.copy()` — a fresh
top-level dict sharing the `bbox` reference — to the history, and return
the input reference `r` itself for the processed batch. -/
def processOneH (s : HManagerState) (r : Nat) (info : IngestInfo) :
    HManagerState × Nat :=
  let d0 := s.heap.detAt r
  let stg := s.heap.settingsAt s.settingsRef
  let d1 : DetObj := { d0 with did := info.pid, tstamp := info.tstamp, alertTriggered := false }
  if d1.hasMask = false ∧ stg.confidenceThreshold ≤ d1.confidence ∧
      stg.alertCooldown ≤ info.nowMs - s.lastAlertTime.getD info.pid then
    let d2 : DetObj := { d1 with alertTriggered := true }
    let st0 := s.heap.statsAt s.statsRef
    let h1 : Heap := { s.heap with
        detAt := setF s.heap.detAt r d2
        statsAt := setF s.heap.statsAt s.statsRef
          { st0 with activeAlerts := st0.activeAlerts + 1 } }
    let c := h1.nextAddr
    let h2 : Heap := { h1 with detAt := setF h1.detAt c d2, nextAddr := h1.nextAddr + 1 }
    ({ s with
        heap := h2
        historyRefs := dequeAppend 1000 s.historyRefs c
        lastAlertTime := s.lastAlertTime.set info.pid info.nowMs }, r)
  else
    let h1 : Heap := { s.heap with detAt := setF s.heap.detAt r d1 }
    let c := h1.nextAddr
    let h2 : Heap := { h1 with detAt := setF h1.detAt c d1, nextAddr := h1.nextAddr + 1 }
    ({ s with heap := h2, historyRefs := dequeAppend 1000 s.historyRefs c }, r)

/-- The batch loop of `process_detections` on the heap. -/
def processListH (s : HManagerState) :
    List (Nat × IngestInfo) → HManagerState × List Nat
  | [] => (s, [])
  | (r, info) :: rest =>
      let one := processOneH s r info
      let more := processListH one.1 rest
      (more.1, one.2 :: more.2)

/-- `update_statistics` on the heap: recompute from the history dicts and
write the result into the statistics dict at `statsRef`. -/
def update_statisticsH (s : HManagerState) : HManagerState :=
  let hist := s.historyRefs.map s.heap.detAt
  let total := hist.length
  if total = 0 then s
  else
    let masked := (hist.filter (fun d => d.hasMask)).length
    let st0 := s.heap.statsAt s.statsRef
    let st1 : Statistics :=
      { st0 with
          totalDetections := total
          maskedCount := masked
          unmaskedCount := total - masked
          complianceRate := roundTo 2 (((masked : Rat) / (total : Rat)) * 100)
          avgConfidence := roundTo 3 ((hist.map (fun d => d.confidence)).sum / (total : Rat)) }
    { s with heap := { s.heap with statsAt := setF s.heap.statsAt s.statsRef st1 } }

/-- `DetectionManager.process_detections` on the heap. -/
def process_detectionsH (s : HManagerState) (batch : List (Nat × IngestInfo)) :
    HManagerState × List Nat :=
  let r := processListH s batch
  (update_statisticsH r.1, r.2)

/-! ## Independent recomputation of the statistics (spec side)

These two functions restate the specification's formulas for the derived
statistics (`complianceRate = maskedCount/total*100`, zero when the total
is zero, rounded to two decimal places; `avgConfidence = mean(confidence)`
rounded to three).  They are refinement targets: the theorems compare the
statistics snapshot stored by the code against them. -/

/-- Modelled from the spec: `complianceRate = maskedCount/total*100`
(0 when total = 0), rounded to 2 decimal places, recomputed from the
rolling history. -/
def specComplianceRate (h : List ProcDetection) : Rat :=
  if h.length = 0 then 0
  else roundTo 2 ((((h.filter (fun d => d.hasMask)).length : Rat) / (h.length : Rat)) * 100)

/-- Modelled from the spec: `avgConfidence = mean(confidence)` over the
rolling history, rounded to 3 decimal places (0 when the history is
empty, matching the initial snapshot). -/
def specAvgConfidence (h : List ProcDetection) : Rat :=
  if h.length = 0 then 0
  else roundTo 3 ((h.map (fun d => d.confidence)).sum / (h.length : Rat))

/-- The statistics snapshot agrees with independent recomputation from
the rolling history. -/
def StatsOK (s : ManagerState) : Prop :=
  s.statistics.totalDetections = s.history.length ∧
  s.statistics.maskedCount = (s.history.filter (fun d => d.hasMask)).length ∧
  s.statistics.complianceRate = specComplianceRate s.history ∧
  s.statistics.avgConfidence = specAvgConfidence s.history

/-! ## Helper lemmas -/

theorem dequeAppend_length_le {α : Type} (cap : Nat) (xs : List α) (x : α) :
    (dequeAppend cap xs x).length ≤ cap := by
  simp only [dequeAppend]
  split
  next h =>
    simp only [List.length_drop]
    omega
  next h =>
    omega

theorem dequeAppend_ne_nil {α : Type} (cap : Nat) (hc : 0 < cap) (xs : List α) (x : α) :
    dequeAppend cap xs x ≠ [] := by
  simp only [dequeAppend]
  split
  next h =>
    rw [← List.length_pos, List.length_drop]
    omega
  next h =>
    simp

theorem dequeAppend_drop {α : Type} (cap : Nat) (l : List α) (x : α) :
    dequeAppend cap (l.drop (l.length - cap)) x = (l ++ [x]).drop (l.length + 1 - cap) := by
  rcases Nat.lt_or_ge l.length cap with h | h
  · have h0 : l.length - cap = 0 := by omega
    have h1 : l.length + 1 - cap = 0 := by omega
    rw [h0, h1, List.drop_zero, List.drop_zero]
    simp only [dequeAppend]
    rw [if_neg]
    simp only [List.length_append, List.length_cons, List.length_nil]
    omega
  · rcases Nat.eq_zero_or_pos cap with hc | hc
    · subst hc
      rw [Nat.sub_zero, Nat.sub_zero, List.drop_length,
        List.drop_eq_nil_of_le (by simp : (l ++ [x]).length ≤ l.length + 1)]
      simp [dequeAppend]
    · have hlen : (l.drop (l.length - cap)).length = cap := by
        rw [List.length_drop]
        omega
      have hcond : cap < (l.drop (l.length - cap) ++ [x]).length := by
        simp only [List.length_append, hlen, List.length_cons, List.length_nil]
        omega
      simp only [dequeAppend]
      rw [if_pos hcond]
      have e1 : (l.drop (l.length - cap) ++ [x]).length - cap = 1 := by
        simp only [List.length_append, hlen, List.length_cons, List.length_nil]
        omega
      have h2 : 1 ≤ (l.drop (l.length - cap)).length := by
        rw [List.length_drop]
        omega
      have h3 : l.length + 1 - cap ≤ l.length := by omega
      have e2 : l.length - cap + 1 = l.length + 1 - cap := by omega
      rw [e1, List.drop_append_of_le_length h2, List.drop_drop,
        List.drop_append_of_le_length h3, e2]

theorem foldl_dequeAppend_nil {α : Type} (cap : Nat) (l : List α) :
    List.foldl (dequeAppend cap) [] l = l.drop (l.length - cap) := by
  induction l using List.reverseRecOn with
  | nil => simp
  | append_singleton l x ih =>
      rw [List.foldl_append, ih]
      simpa using dequeAppend_drop cap l x

theorem processOne_history (s : ManagerState) (d : Detection) (info : IngestInfo) :
    (processOne s d info).1.history
      = dequeAppend 1000 s.history (processOne s d info).2 := by
  simp only [processOne]
  split <;> rfl

theorem processOne_settings (s : ManagerState) (d : Detection) (info : IngestInfo) :
    (processOne s d info).1.settings = s.settings := by
  simp only [processOne]
  split <;> rfl

theorem processOne_pid (s : ManagerState) (d : Detection) (info : IngestInfo) :
    (processOne s d info).2.pid = info.pid := by
  simp only [processOne]
  split <;> rfl

theorem update_statistics_history (s : ManagerState) :
    (update_statistics s).history = s.history := by
  simp only [update_statistics]
  split <;> rfl

theorem update_statistics_settings (s : ManagerState) :
    (update_statistics s).settings = s.settings := by
  simp only [update_statistics]
  split <;> rfl

theorem update_statistics_lastAlertTime (s : ManagerState) :
    (update_statistics s).lastAlertTime = s.lastAlertTime := by
  simp only [update_statistics]
  split <;> rfl

theorem update_statistics_activeAlerts (s : ManagerState) :
    (update_statistics s).statistics.activeAlerts = s.statistics.activeAlerts := by
  simp only [update_statistics]
  split <;> rfl

theorem processList_snd_length (ds : List (Detection × IngestInfo)) :
    ∀ s : ManagerState, (processList s ds).2.length = ds.length := by
  induction ds with
  | nil => intro s; rfl
  | cons x rest ih =>
      intro s
      obtain ⟨d, info⟩ := x
      simp only [processList, List.length_cons, ih]

theorem processList_history (ds : List (Detection × IngestInfo)) :
    ∀ s : ManagerState,
      (processList s ds).1.history
        = List.foldl (dequeAppend 1000) s.history (processList s ds).2 := by
  induction ds with
  | nil => intro s; rfl
  | cons x rest ih =>
      intro s
      obtain ⟨d, info⟩ := x
      simp only [processList, List.foldl_cons]
      rw [ih, processOne_history]

theorem processList_pids (ds : List (Detection × IngestInfo)) :
    ∀ s : ManagerState,
      (processList s ds).2.map (fun p => p.pid) = ds.map (fun x => x.2.pid) := by
  induction ds with
  | nil => intro s; rfl
  | cons x rest ih =>
      intro s
      obtain ⟨d, info⟩ := x
      simp only [processList, List.map_cons, ih, processOne_pid]

theorem processList_history_length_le (ds : List (Detection × IngestInfo)) :
    ∀ s : ManagerState, s.history.length ≤ 1000 →
      (processList s ds).1.history.length ≤ 1000 := by
  induction ds with
  | nil => intro s h; exact h
  | cons x rest ih =>
      intro s h
      obtain ⟨d, info⟩ := x
      simp only [processList]
      apply ih
      rw [processOne_history]
      exact dequeAppend_length_le 1000 s.history _

theorem processList_history_ne_nil (ds : List (Detection × IngestInfo)) (hds : ds ≠ []) :
    ∀ s : ManagerState, (processList s ds).1.history ≠ [] := by
  induction ds with
  | nil => exact absurd rfl hds
  | cons x rest ih =>
      intro s
      obtain ⟨d, info⟩ := x
      by_cases hr : rest = []
      · subst hr
        simp only [processList]
        rw [processOne_history]
        exact dequeAppend_ne_nil 1000 (by omega) _ _
      · simp only [processList]
        exact ih hr _

theorem statsOK_initial : StatsOK initialState := by
  refine ⟨rfl, rfl, ?_, ?_⟩ <;>
    simp [initialState, initialStatistics, specComplianceRate, specAvgConfidence]

theorem statsOK_update (s : ManagerState) (h : s.history = [] → StatsOK s) :
    StatsOK (update_statistics s) := by
  by_cases he : s.history.length = 0
  · have hs : update_statistics s = s := by
      simp only [update_statistics]
      rw [if_pos he]
    rw [hs]
    exact h (List.length_eq_zero.mp he)
  · unfold StatsOK
    simp only [update_statistics]
    rw [if_neg he]
    refine ⟨rfl, rfl, ?_, ?_⟩
    · show roundTo 2 _ = specComplianceRate s.history
      unfold specComplianceRate
      rw [if_neg he]
    · show roundTo 3 _ = specAvgConfidence s.history
      unfold specAvgConfidence
      rw [if_neg he]

theorem process_detections_statsOK (s : ManagerState)
    (ds : List (Detection × IngestInfo)) (h : StatsOK s) :
    StatsOK (process_detections s ds).1 := by
  show StatsOK (update_statistics (processList s ds).1)
  apply statsOK_update
  intro hemp
  cases ds with
  | nil => exact h
  | cons x rest => exact absurd hemp (processList_history_ne_nil (x :: rest) (by simp) s)

theorem ingestAll_statsOK (batches : List (List (Detection × IngestInfo))) :
    StatsOK (ingestAll initialState batches) := by
  suffices h : ∀ s, StatsOK s → StatsOK (ingestAll s batches) from h _ statsOK_initial
  unfold ingestAll
  induction batches with
  | nil => intro s hs; exact hs
  | cons b bs ih =>
      intro s hs
      simp only [List.foldl_cons]
      exact ih _ (process_detections_statsOK s b hs)

/-! ## Claims -/

/-- C3: after every ingest call — i.e. after any sequence of batches fed to
`process_detections` from the initial state — the stored statistics
snapshot matches independent recomputation from the rolling history:
`totalDetections` is the history length, `maskedCount` counts the
`hasMask` entries, `complianceRate` is `maskedCount/total*100` (0 when the
total is 0) rounded to 2 decimal places, and `avgConfidence` is the mean
confidence rounded to 3 decimal places. -/
theorem claim_C3 (batches : List (List (Detection × IngestInfo))) :
    (ingestAll initialState batches).statistics.totalDetections
        = (ingestAll initialState batches).history.length ∧
    (ingestAll initialState batches).statistics.maskedCount
        = ((ingestAll initialState batches).history.filter (fun d => d.hasMask)).length ∧
    (ingestAll initialState batches).statistics.complianceRate
        = specComplianceRate (ingestAll initialState batches).history ∧
    (ingestAll initialState batches).statistics.avgConfidence
        = specAvgConfidence (ingestAll initialState batches).history :=
  ingestAll_statsOK batches

/-- C2: the rolling history never exceeds its capacity `N = 1000` for any
sequence of ingested batches, and after ingesting `N + 1` detections with
pairwise-distinct ids into an empty manager the history equals the tail of
the processed batch — the newest 1000 in oldest-first order — and the
oldest processed detection is absent (FIFO eviction). -/
theorem claim_C2 :
    (∀ batches, (ingestAll initialState batches).history.length ≤ 1000) ∧
    (∀ ds : List (Detection × IngestInfo), ds.length = 1001 →
      (List.map (fun x => x.2.pid) ds).Nodup →
      (process_detections initialState ds).2.length = 1001 ∧
      (process_detections initialState ds).1.history
        = (process_detections initialState ds).2.tail ∧
      ∀ p ∈ (process_detections initialState ds).2.head?,
        p ∉ (process_detections initialState ds).1.history) := by
  constructor
  · intro batches
    suffices h : ∀ s : ManagerState, s.history.length ≤ 1000 →
        (ingestAll s batches).history.length ≤ 1000 by
      exact h initialState (by simp [initialState])
    unfold ingestAll
    induction batches with
    | nil => intro s hs; exact hs
    | cons b bs ih =>
        intro s hs
        simp only [List.foldl_cons]
        apply ih
        show (update_statistics (processList s b).1).history.length ≤ 1000
        rw [update_statistics_history]
        exact processList_history_length_le b s hs
  · intro ds hlen hnodup
    have hlen2 : (processList initialState ds).2.length = 1001 := by
      rw [processList_snd_length]
      exact hlen
    have hh : (processList initialState ds).1.history
        = (processList initialState ds).2.tail := by
      rw [processList_history ds initialState]
      show List.foldl (dequeAppend 1000) [] _ = _
      rw [foldl_dequeAppend_nil, hlen2]
      exact List.drop_one _
    have hnd : (processList initialState ds).2.Nodup := by
      apply List.Nodup.of_map (fun p => p.pid)
      rw [processList_pids ds initialState]
      exact hnodup
    refine ⟨hlen2, ?_, ?_⟩
    · show (update_statistics (processList initialState ds).1).history = _
      rw [update_statistics_history]
      exact hh
    · intro p hp
      show p ∉ (update_statistics (processList initialState ds).1).history
      rw [update_statistics_history, hh]
      have hp2 : (processList initialState ds).2.head? = some p := hp
      cases hps : (processList initialState ds).2 with
      | nil =>
          rw [hps] at hp2
          simp at hp2
      | cons a t =>
          rw [hps] at hp2
          simp only [List.head?_cons, Option.some.injEq] at hp2
          subst hp2
          rw [hps] at hnd
          simpa using (List.nodup_cons.mp hnd).1

/-- C1: a detection violating the policy (`hasMask = false`,
`confidence ≥ confidenceThreshold`), whose fresh id has no recorded alert
time and which arrives once the wall clock has passed the cooldown length,
gets `alertTriggered = true` and increments the active-alert counter; a
second ingestion whose id collides with the first, within the cooldown
window, is left with `alertTriggered = false` and does not increment the
counter again. -/
theorem claim_C1 (s : ManagerState) (d d2 : Detection) (i1 i2 : IngestInfo)
    (hmask : d.hasMask = false)
    (hconf : s.settings.confidenceThreshold ≤ d.confidence)
    (hfirst : s.lastAlertTime.getD i1.pid = 0)
    (hnow : s.settings.alertCooldown ≤ i1.nowMs)
    (hpid : i2.pid = i1.pid)
    (hcool : i2.nowMs - i1.nowMs < s.settings.alertCooldown) :
    ((process_detections s [(d, i1)]).2.map (fun p => p.alertTriggered) = [true]) ∧
    ((process_detections s [(d, i1)]).1.statistics.activeAlerts
        = s.statistics.activeAlerts + 1) ∧
    ((process_detections (process_detections s [(d, i1)]).1 [(d2, i2)]).2.map
        (fun p => p.alertTriggered) = [false]) ∧
    ((process_detections (process_detections s [(d, i1)]).1
          [(d2, i2)]).1.statistics.activeAlerts
        = (process_detections s [(d, i1)]).1.statistics.activeAlerts) := by
  have hc1 : d.hasMask = false ∧ s.settings.confidenceThreshold ≤ d.confidence ∧
      s.settings.alertCooldown ≤ i1.nowMs - s.lastAlertTime.getD i1.pid := by
    refine ⟨hmask, hconf, ?_⟩
    rw [hfirst, sub_zero]
    exact hnow
  have e1 : processOne s d i1 = ({ s with
      lastAlertTime := s.lastAlertTime.set i1.pid i1.nowMs
      statistics := { s.statistics with activeAlerts := s.statistics.activeAlerts + 1 }
      history := dequeAppend 1000 s.history
        ⟨i1.pid, i1.tstamp, d.hasMask, d.confidence, true⟩ },
    ⟨i1.pid, i1.tstamp, d.hasMask, d.confidence, true⟩) := by
    simp only [processOne]
    rw [if_pos hc1]
  have hset1 : (process_detections s [(d, i1)]).1.settings = s.settings := by
    show (update_statistics (processOne s d i1).1).settings = s.settings
    rw [update_statistics_settings]
    exact processOne_settings s d i1
  have hlast1 : (process_detections s [(d, i1)]).1.lastAlertTime
      = s.lastAlertTime.set i1.pid i1.nowMs := by
    show (update_statistics (processOne s d i1).1).lastAlertTime = _
    rw [update_statistics_lastAlertTime, e1]
  have halerts1 : (process_detections s [(d, i1)]).1.statistics.activeAlerts
      = s.statistics.activeAlerts + 1 := by
    show (update_statistics (processOne s d i1).1).statistics.activeAlerts = _
    rw [update_statistics_activeAlerts, e1]
  have hgetD : ((process_detections s [(d, i1)]).1.lastAlertTime).getD i2.pid
      = i1.nowMs := by
    rw [hlast1, hpid]
    have hfind : List.find? (fun p => p.1 == i1.pid)
        ((i1.pid, i1.nowMs) :: s.lastAlertTime) = some (i1.pid, i1.nowMs) :=
      List.find?_cons_of_pos _ (by simp)
    simp only [AlertMap.set, AlertMap.getD, hfind]
  have hc2 : ¬(d2.hasMask = false ∧
      (process_detections s [(d, i1)]).1.settings.confidenceThreshold ≤ d2.confidence ∧
      (process_detections s [(d, i1)]).1.settings.alertCooldown
        ≤ i2.nowMs - ((process_detections s [(d, i1)]).1.lastAlertTime).getD i2.pid) := by
    rw [hset1, hgetD]
    rintro ⟨-, -, h3⟩
    exact absurd h3 (not_le.mpr hcool)
  have e2 : processOne (process_detections s [(d, i1)]).1 d2 i2
      = ({ (process_detections s [(d, i1)]).1 with
            history := dequeAppend 1000 (process_detections s [(d, i1)]).1.history
              ⟨i2.pid, i2.tstamp, d2.hasMask, d2.confidence, false⟩ },
        ⟨i2.pid, i2.tstamp, d2.hasMask, d2.confidence, false⟩) := by
    simp only [processOne]
    rw [if_neg hc2]
  refine ⟨?_, halerts1, ?_, ?_⟩
  · show [(processOne s d i1).2].map (fun p => p.alertTriggered) = [true]
    rw [e1]
    rfl
  · show [(processOne (process_detections s [(d, i1)]).1 d2 i2).2].map
        (fun p => p.alertTriggered) = [false]
    rw [e2]
    rfl
  · show (update_statistics
        (processOne (process_detections s [(d, i1)]).1 d2 i2).1).statistics.activeAlerts = _
    rw [update_statistics_activeAlerts, e2]

theorem claim_C1_witness :
    ((process_detections initialState
        [({ hasMask := false, confidence := 95/100 },
          { pid := 7, tstamp := 0, nowMs := 6000 })]).2.map
        (fun p => p.alertTriggered) = [true]) ∧
    ((process_detections initialState
        [({ hasMask := false, confidence := 95/100 },
          { pid := 7, tstamp := 0, nowMs := 6000 })]).1.statistics.activeAlerts
        = initialState.statistics.activeAlerts + 1) ∧
    ((process_detections (process_detections initialState
        [({ hasMask := false, confidence := 95/100 },
          { pid := 7, tstamp := 0, nowMs := 6000 })]).1
        [({ hasMask := false, confidence := 9/10 },
          { pid := 7, tstamp := 1, nowMs := 7000 })]).2.map
        (fun p => p.alertTriggered) = [false]) ∧
    ((process_detections (process_detections initialState
        [({ hasMask := false, confidence := 95/100 },
          { pid := 7, tstamp := 0, nowMs := 6000 })]).1
        [({ hasMask := false, confidence := 9/10 },
          { pid := 7, tstamp := 1, nowMs := 7000 })]).1.statistics.activeAlerts
        = (process_detections initialState
        [({ hasMask := false, confidence := 95/100 },
          { pid := 7, tstamp := 0, nowMs := 6000 })]).1.statistics.activeAlerts) :=
  claim_C1 initialState
    { hasMask := false, confidence := 95/100 }
    { hasMask := false, confidence := 9/10 }
    { pid := 7, tstamp := 0, nowMs := 6000 }
    { pid := 7, tstamp := 1, nowMs := 7000 }
    rfl
    (by norm_num [initialState, defaultSettings])
    rfl
    (by norm_num [initialState, defaultSettings])
    rfl
    (by norm_num [initialState, defaultSettings])

/-- A concrete batch of 1001 unmasked detections with distinct ids. -/
def c2Batch : List (Detection × IngestInfo) :=
  (List.range 1001).map fun i =>
    ({ hasMask := false, confidence := 0 }, { pid := i, tstamp := 0, nowMs := 0 })

theorem claim_C2_witness :
    c2Batch.length = 1001 ∧
    (process_detections initialState c2Batch).2.length = 1001 ∧
    (process_detections initialState c2Batch).1.history
      = (process_detections initialState c2Batch).2.tail := by
  have h1 : c2Batch.length = 1001 := by simp [c2Batch]
  have h2 : (List.map (fun x => x.2.pid) c2Batch).Nodup := by
    have e : List.map (fun x => x.2.pid) c2Batch = List.range 1001 := by
      unfold c2Batch
      rw [List.map_map]
      exact List.map_id _
    rw [e]
    exact List.nodup_range 1001
  obtain ⟨a, b, -⟩ := claim_C2.2 c2Batch h1 h2
  exact ⟨h1, a, b⟩

/-- C4 counterexample: `get_detection_history` called with `limit = 0` on
a one-entry history (reached by one ingestion) returns the entire history
— one entry, not at most zero — because Python's `history[-0:]` is the
whole list.  This refutes the claim for every limit value. -/
theorem claim_C4_counterexample :
    ¬ (get_detection_history
        (process_detections initialState
          [({ hasMask := true, confidence := 1 },
            { pid := 0, tstamp := 0, nowMs := 0 })]).1 0).length ≤ 0 := by
  decide

/-- C4 (amended): for every history state and every limit ≥ 1,
`get_detection_history` returns at most `limit` entries — the suffix of
the rolling history of length `min limit (length)`, i.e. the most recent
entries, ordered newest-last (fewer when the history holds fewer). -/
theorem claim_C4 (s : ManagerState) (limit : Int) (h : 1 ≤ limit) :
    (get_detection_history s limit).length ≤ limit.toNat ∧
    get_detection_history s limit
      = s.history.drop (s.history.length - limit.toNat) := by
  have key : get_detection_history s limit
      = s.history.drop (s.history.length - limit.toNat) := by
    simp only [get_detection_history, pySliceFrom]
    split
    next hl =>
      congr 1
      rw [if_pos (by omega : -limit < 0)]
      omega
    next hl =>
      rw [Nat.sub_eq_zero_of_le (by omega : s.history.length ≤ limit.toNat),
        List.drop_zero]
  refine ⟨?_, key⟩
  rw [key, List.length_drop]
  omega

/-- A two-entry history reached by ingesting two detections. -/
def c4State : ManagerState :=
  (process_detections initialState
    [({ hasMask := true, confidence := 1 }, { pid := 0, tstamp := 0, nowMs := 0 }),
     ({ hasMask := false, confidence := 0 }, { pid := 1, tstamp := 1, nowMs := 0 })]).1

theorem claim_C4_witness :
    (get_detection_history c4State 1).length ≤ (1 : Int).toNat ∧
    get_detection_history c4State 1
      = c4State.history.drop (c4State.history.length - (1 : Int).toNat) :=
  claim_C4 c4State 1 (by norm_num)

/-- C5: `broadcast` attempts delivery to every live subscriber: each one
whose channel works receives the event (and only live ones do), each one
whose send fails is removed from the live set while the others stay, the
send loop itself is total (failures are caught, never re-raised to the
caller), and the connection count afterwards equals the number of
surviving subscribers — in particular 3 subscribers with exactly one
broken channel leave a count of 2. -/
theorem claim_C5 (s : WSState) (sendOk : Conn → Bool) :
    (∀ c ∈ s.active, sendOk c = true → c ∈ (broadcast s sendOk).2) ∧
    (∀ c ∈ (broadcast s sendOk).2, c ∈ s.active ∧ sendOk c = true) ∧
    (∀ c ∈ s.active, sendOk c = false → c ∉ (broadcast s sendOk).1.active) ∧
    (∀ c ∈ s.active, sendOk c = true → c ∈ (broadcast s sendOk).1.active) ∧
    (get_connection_count (broadcast s sendOk).1
        = (s.active.filter (fun c => sendOk c = true)).card) ∧
    (s.active.card = 3 →
      (s.active.filter (fun c => ¬ sendOk c = true)).card = 1 →
      get_connection_count (broadcast s sendOk).1 = 2) := by
  have hsplit : (s.active.filter (fun c => sendOk c = true)).card
      + (s.active.filter (fun c => ¬ sendOk c = true)).card = s.active.card :=
    Finset.filter_card_add_filter_neg_card_eq_card (fun c => sendOk c = true)
  by_cases hact : s.active = ∅
  · have hb : broadcast s sendOk = (s, ∅) := by
      simp only [broadcast]
      rw [if_pos hact]
    rw [hb]
    refine ⟨?_, ?_, ?_, ?_, ?_, ?_⟩ <;> simp [get_connection_count, hact]
  · have hb : broadcast s sendOk
        = (⟨s.active \ s.active.filter (fun c => ¬ sendOk c = true)⟩,
           s.active.filter (fun c => sendOk c = true)) := by
      simp only [broadcast]
      rw [if_neg hact]
    have hactive : s.active \ s.active.filter (fun c => ¬ sendOk c = true)
        = s.active.filter (fun c => sendOk c = true) := by
      ext c
      simp only [Finset.mem_sdiff, Finset.mem_filter]
      tauto
    rw [hb]
    refine ⟨?_, ?_, ?_, ?_, ?_, ?_⟩
    · intro c hc hok
      exact Finset.mem_filter.mpr ⟨hc, hok⟩
    · intro c hc
      exact Finset.mem_filter.mp hc
    · intro c hc hfail
      show c ∉ s.active \ _
      rw [hactive]
      intro hmem
      rcases Finset.mem_filter.mp hmem with ⟨-, hok⟩
      rw [hfail] at hok
      cases hok
    · intro c hc hok
      show c ∈ s.active \ _
      rw [hactive]
      exact Finset.mem_filter.mpr ⟨hc, hok⟩
    · show (s.active \ _).card = _
      rw [hactive]
    · intro h3 h1c
      show (s.active \ _).card = 2
      rw [hactive]
      omega

theorem claim_C5_witness :
    get_connection_count
      (broadcast ⟨{0, 1, 2}⟩ (fun c => c != 2)).1 = 2 ∧
    1 ∈ (broadcast ⟨{0, 1, 2}⟩ (fun c => c != 2)).2 := by
  obtain ⟨h1, -, -, -, -, h6⟩ := claim_C5 ⟨{0, 1, 2}⟩ (fun c => c != 2)
  exact ⟨h6 (by decide) (by decide), h1 1 (by decide) (by decide)⟩

/-- C6: `update_settings` with a partial mapping merges it into the
settings: fields absent from the argument keep their prior values, fields
present take the new value, the rest of the manager state is untouched,
and the returned value is the resulting full settings. -/
theorem claim_C6 (s : ManagerState) (p : PartialSettings) :
    (update_settings s p).2 = (update_settings s p).1.settings ∧
    (update_settings s p).1.history = s.history ∧
    (update_settings s p).1.statistics = s.statistics ∧
    (update_settings s p).1.lastAlertTime = s.lastAlertTime ∧
    (p.visualAlerts = none →
      (update_settings s p).2.visualAlerts = s.settings.visualAlerts) ∧
    (p.soundAlerts = none →
      (update_settings s p).2.soundAlerts = s.settings.soundAlerts) ∧
    (p.confidenceThreshold = none →
      (update_settings s p).2.confidenceThreshold = s.settings.confidenceThreshold) ∧
    (p.alertCooldown = none →
      (update_settings s p).2.alertCooldown = s.settings.alertCooldown) ∧
    (∀ v, p.visualAlerts = some v → (update_settings s p).2.visualAlerts = v) ∧
    (∀ v, p.soundAlerts = some v → (update_settings s p).2.soundAlerts = v) ∧
    (∀ v, p.confidenceThreshold = some v →
      (update_settings s p).2.confidenceThreshold = v) ∧
    (∀ v, p.alertCooldown = some v → (update_settings s p).2.alertCooldown = v) := by
  refine ⟨rfl, rfl, rfl, rfl, ?_, ?_, ?_, ?_, ?_, ?_, ?_, ?_⟩ <;>
    first
      | (intro h
         simp [update_settings, Settings.merge, h])
      | (intro v h
         simp [update_settings, Settings.merge, h])

theorem claim_C6_witness :
    (update_settings initialState
        { visualAlerts := none, soundAlerts := none,
          confidenceThreshold := some (1/2), alertCooldown := none }).2.confidenceThreshold
      = 1/2 ∧
    (update_settings initialState
        { visualAlerts := none, soundAlerts := none,
          confidenceThreshold := some (1/2), alertCooldown := none }).2.visualAlerts
      = initialState.settings.visualAlerts ∧
    (update_settings initialState
        { visualAlerts := none, soundAlerts := none,
          confidenceThreshold := some (1/2), alertCooldown := none }).2.soundAlerts
      = initialState.settings.soundAlerts ∧
    (update_settings initialState
        { visualAlerts := none, soundAlerts := none,
          confidenceThreshold := some (1/2), alertCooldown := none }).2.alertCooldown
      = initialState.settings.alertCooldown := by
  obtain ⟨-, -, -, -, hva, hsa, -, hac, -, -, hct, -⟩ :=
    claim_C6 initialState
      { visualAlerts := none, soundAlerts := none,
        confidenceThreshold := some (1/2), alertCooldown := none }
  exact ⟨hct (1/2) rfl, hva rfl, hsa rfl, hac rfl⟩

/-- C7: the stream generator started before any frame is published yields
no chunk while no frame is available (it keeps ticking rather than
erroring, so the first chunk can only come from a tick that sees a
frame); a tick whose encoding fails yields no chunk but does not
terminate the stream; and the stream ends at the first tick where the
pipeline is no longer running. -/
theorem claim_C7 :
    (∀ ticks : List StreamTick, (∀ t ∈ ticks, t.frame = none) →
      generate_frame_stream ticks = []) ∧
    (∀ (t : StreamTick) (rest : List StreamTick),
      t.running = true → t.frame = none →
      generate_frame_stream (t :: rest) = generate_frame_stream rest) ∧
    (∀ (t : StreamTick) (rest : List StreamTick) (f : Nat),
      t.running = true → t.frame = some f → t.encodeOk = false →
      generate_frame_stream (t :: rest) = generate_frame_stream rest) ∧
    (∀ (t : StreamTick) (rest : List StreamTick),
      t.running = false → generate_frame_stream (t :: rest) = []) := by
  have hnone : ∀ (t : StreamTick) (rest : List StreamTick),
      t.running = true → t.frame = none →
      generate_frame_stream (t :: rest) = generate_frame_stream rest := by
    intro t rest hr hf
    simp [generate_frame_stream, hr, hf]
  refine ⟨?_, hnone, ?_, ?_⟩
  · intro ticks h
    induction ticks with
    | nil => rfl
    | cons t rest ih =>
        cases hr : t.running with
        | false => simp [generate_frame_stream, hr]
        | true =>
            rw [hnone t rest hr (h t (by simp))]
            exact ih (fun x hx => h x (by simp [hx]))
  · intro t rest f hr hf he
    simp [generate_frame_stream, hr, hf, he]
  · intro t rest hr
    simp [generate_frame_stream, hr]

theorem claim_C7_witness :
    generate_frame_stream [⟨true, none, true⟩, ⟨true, some 5, true⟩]
      = generate_frame_stream [⟨true, some 5, true⟩] ∧
    generate_frame_stream [⟨true, some 4, false⟩, ⟨true, some 5, true⟩]
      = generate_frame_stream [⟨true, some 5, true⟩] ∧
    generate_frame_stream [⟨false, some 4, true⟩, ⟨true, some 5, true⟩] = [] ∧
    generate_frame_stream [⟨true, none, true⟩, ⟨true, none, false⟩] = [] :=
  ⟨claim_C7.2.1 ⟨true, none, true⟩ [⟨true, some 5, true⟩] rfl rfl,
   claim_C7.2.2.1 ⟨true, some 4, false⟩ [⟨true, some 5, true⟩] 4 rfl rfl rfl,
   claim_C7.2.2.2 ⟨false, some 4, true⟩ [⟨true, some 5, true⟩] rfl,
   claim_C7.1 [⟨true, none, true⟩, ⟨true, none, false⟩] (by decide)⟩

/-- C8: in one iteration of the capture loop with a registered callback,
the callback is invoked exactly when this iteration ran a fresh inference
pass — which happens exactly when the read succeeded and the frame
counter is a multiple of the inference interval — and the fresh batch is
non-empty; an intermediate successful iteration reuses the previous batch
for the overlay without invoking the callback. -/
theorem claim_C8 (s : CapState) (inp : CapInput) :
    ((captureStep true s inp).2.callbackInvoked = true ↔
      ((captureStep true s inp).2.ranInference = true ∧ inp.dets ≠ [])) ∧
    ((captureStep true s inp).2.ranInference = true ↔
      (inp.readOk = true ∧ s.frameCount % detection_interval = 0)) ∧
    (inp.readOk = true → s.frameCount % detection_interval ≠ 0 →
      (captureStep true s inp).2.overlay = some s.currentDetections ∧
      (captureStep true s inp).2.callbackInvoked = false ∧
      (captureStep true s inp).1.currentDetections = s.currentDetections) := by
  cases hb : inp.readOk with
  | false =>
      refine ⟨?_, ?_, ?_⟩ <;> simp [captureStep, hb]
  | true =>
      by_cases h2 : s.frameCount % detection_interval = 0
      · refine ⟨?_, ?_, ?_⟩
        · simp [captureStep, hb, h2, List.isEmpty_iff]
        · simp [captureStep, hb, h2]
        · intro hok hmod
          exact absurd h2 hmod
      · refine ⟨?_, ?_, ?_⟩ <;> simp [captureStep, hb, h2]

theorem claim_C8_witness :
    ((captureStep true ⟨0, []⟩ ⟨true, [3]⟩).2.callbackInvoked = true ↔
      ((captureStep true ⟨0, []⟩ ⟨true, [3]⟩).2.ranInference = true ∧
        ([3] : List Nat) ≠ [])) ∧
    (captureStep true ⟨1, [9]⟩ ⟨true, [3]⟩).2.overlay = some [9] ∧
    (captureStep true ⟨1, [9]⟩ ⟨true, [3]⟩).2.callbackInvoked = false ∧
    (captureStep true ⟨1, [9]⟩ ⟨true, [3]⟩).1.currentDetections = [9] := by
  obtain ⟨h1, h2, h3⟩ := claim_C8 ⟨1, [9]⟩ ⟨true, [3]⟩
  exact ⟨(claim_C8 ⟨0, []⟩ ⟨true, [3]⟩).1, h3 rfl (by decide)⟩

/-- C9: a failure inside the mask classification of one region makes
`predict_mask` return the fallback `(hasMask = false, confidence = 0.0)`
for that region, and the batch is not aborted: `detect_faces_and_masks`
still returns one record per located face in order, with every other
region classified by its own outcome. -/
theorem claim_C9 (faces : List (FaceBox × ClassifyOutcome)) (j : Nat)
    (fc : FaceBox × ClassifyOutcome) (hj : faces[j]? = some fc)
    (herr : fc.2 = Except.error ()) :
    (detect_faces_and_masks faces).length = faces.length ∧
    (detect_faces_and_masks faces)[j]?
      = some { idx := j, bbox := fc.1, hasMask := false, confidence := 0 } ∧
    (∀ (k : Nat) (fc' : FaceBox × ClassifyOutcome), faces[k]? = some fc' →
      (detect_faces_and_masks faces)[k]?
        = some { idx := k, bbox := fc'.1, hasMask := (predict_mask fc'.2).1,
                 confidence := (predict_mask fc'.2).2 }) := by
  have hgen : ∀ (k : Nat) (fc' : FaceBox × ClassifyOutcome), faces[k]? = some fc' →
      (detect_faces_and_masks faces)[k]?
        = some { idx := k, bbox := fc'.1, hasMask := (predict_mask fc'.2).1,
                 confidence := (predict_mask fc'.2).2 } := by
    intro k fc' hk
    unfold detect_faces_and_masks
    rw [List.getElem?_map, List.getElem?_enum, hk]
    rfl
  refine ⟨by simp [detect_faces_and_masks], ?_, hgen⟩
  rw [hgen j fc hj, herr]
  rfl

/-- Three faces whose middle classification attempt fails. -/
def c9Faces : List (FaceBox × ClassifyOutcome) :=
  [(⟨0, 0, 2, 2⟩, Except.ok (true, 9/10)),
   (⟨1, 1, 3, 3⟩, Except.error ()),
   (⟨2, 2, 4, 4⟩, Except.ok (false, 7/10))]

theorem claim_C9_witness :
    (detect_faces_and_masks c9Faces).length = 3 ∧
    (detect_faces_and_masks c9Faces)[1]?
      = some { idx := 1, bbox := ⟨1, 1, 3, 3⟩, hasMask := false, confidence := 0 } ∧
    (detect_faces_and_masks c9Faces)[2]?
      = some { idx := 2, bbox := ⟨2, 2, 4, 4⟩, hasMask := false, confidence := 7/10 } := by
  obtain ⟨hl, hj, hk⟩ := claim_C9 c9Faces 1 (⟨1, 1, 3, 3⟩, Except.error ()) rfl rfl
  refine ⟨hl.trans rfl, hj, ?_⟩
  rw [hk 2 (⟨2, 2, 4, 4⟩, Except.ok (false, 7/10)) rfl]
  norm_num [predict_mask, max_def, min_def]

theorem processOneH_snd (s : HManagerState) (r : Nat) (info : IngestInfo) :
    (processOneH s r info).2 = r := by
  simp only [processOneH]
  split <;> rfl

theorem processOneH_historyRefs (s : HManagerState) (r : Nat) (info : IngestInfo) :
    (processOneH s r info).1.historyRefs
      = dequeAppend 1000 s.historyRefs s.heap.nextAddr := by
  simp only [processOneH]
  split <;> rfl

theorem processOneH_bboxAt (s : HManagerState) (r : Nat) (info : IngestInfo) :
    (processOneH s r info).1.heap.bboxAt = s.heap.bboxAt := by
  simp only [processOneH]
  split <;> rfl

theorem processOneH_detAt_copy (s : HManagerState) (r : Nat) (info : IngestInfo)
    (hr : r ≠ s.heap.nextAddr) :
    (processOneH s r info).1.heap.detAt s.heap.nextAddr
      = (processOneH s r info).1.heap.detAt r := by
  simp only [processOneH]
  split <;> simp [setF, hr]

theorem processOneH_detAt_bboxRef (s : HManagerState) (r : Nat) (info : IngestInfo)
    (hr : r ≠ s.heap.nextAddr) :
    ((processOneH s r info).1.heap.detAt r).bboxRef = (s.heap.detAt r).bboxRef := by
  simp only [processOneH]
  split <;> simp [setF, hr]

theorem update_statisticsH_detAt (s : HManagerState) :
    (update_statisticsH s).heap.detAt = s.heap.detAt := by
  simp only [update_statisticsH]
  split <;> rfl

theorem update_statisticsH_bboxAt (s : HManagerState) :
    (update_statisticsH s).heap.bboxAt = s.heap.bboxAt := by
  simp only [update_statisticsH]
  split <;> rfl

theorem update_statisticsH_historyRefs (s : HManagerState) :
    (update_statisticsH s).historyRefs = s.historyRefs := by
  simp only [update_statisticsH]
  split <;> rfl

/-- The initial heap of the copy-semantics scenario: one bbox dict at
address 0 with contents `{x:1, y:2, w:3, h:4}`, one input detection dict
at address 1 referencing it, the manager's statistics dict at 2 and
settings dict at 3. -/
def c10Heap : Heap :=
  { bboxAt := setF (fun _ => ⟨0, 0, 0, 0⟩) 0 ⟨1, 2, 3, 4⟩
    detAt := setF (fun _ => ⟨0, 0, 0, false, 0, false⟩) 1
      { did := 0, tstamp := 0, bboxRef := 0, hasMask := false,
        confidence := 95/100, alertTriggered := false }
    statsAt := fun _ => initialStatistics
    settingsAt := fun _ => defaultSettings
    nextAddr := 4 }

/-- A freshly initialised manager over `c10Heap`. -/
def c10State : HManagerState :=
  { heap := c10Heap
    historyRefs := []
    statsRef := 2
    settingsRef := 3
    lastAlertTime := [] }

/-- One ingestion of the detection dict at address 1. -/
def c10Run : HManagerState × List Nat :=
  process_detectionsH c10State [(1, { pid := 42, tstamp := 0, nowMs := 6000 })]

/-- The consumer mutates the nested bbox dict of the detection returned
by the ingestion (`returned[0]['bbox']['x'] = 9`, etc.). -/
def c10Mutated : HManagerState :=
  writeBbox c10Run.1 ((c10Run.1.heap.detAt 1).bboxRef) ⟨9, 9, 9, 9⟩

/-- C10 counterexample: `process_detections` appends `detection.copy()` —
a *shallow* copy — to the history, so the history entry (the dict at
address 4) shares its `bbox` dict with the returned detection (the dict
at address 1).  Mutating the returned detection's bbox after the call
changes the observable value of the stored history entry, refuting the
claim that mutating any dict returned by ingest leaves the aggregator's
history entries unchanged. -/
theorem claim_C10_counterexample :
    c10Run.2 = [1] ∧
    c10Run.1.historyRefs = [4] ∧
    c10Mutated.heap.bboxAt ((c10Mutated.heap.detAt 4).bboxRef) = ⟨9, 9, 9, 9⟩ ∧
    c10Run.1.heap.bboxAt ((c10Run.1.heap.detAt 4).bboxRef) = ⟨1, 2, 3, 4⟩ ∧
    viewDet c10Mutated 4 ≠ viewDet c10Run.1 4 := by
  have h14 : (1 : Nat) ≠ c10State.heap.nextAddr := by decide
  have f1 : c10Run.2 = [1] := by
    show [(processOneH c10State 1 { pid := 42, tstamp := 0, nowMs := 6000 }).2] = [1]
    rw [processOneH_snd]
  have f2 : c10Run.1.historyRefs = [4] := by
    show (update_statisticsH
        (processOneH c10State 1 { pid := 42, tstamp := 0, nowMs := 6000 }).1).historyRefs = [4]
    rw [update_statisticsH_historyRefs, processOneH_historyRefs]
    rfl
  have f3 : c10Run.1.heap.bboxAt = c10State.heap.bboxAt := by
    show (update_statisticsH
        (processOneH c10State 1 { pid := 42, tstamp := 0, nowMs := 6000 }).1).heap.bboxAt = _
    rw [update_statisticsH_bboxAt, processOneH_bboxAt]
  have f4 : (c10Run.1.heap.detAt 1).bboxRef = 0 := by
    show ((update_statisticsH
        (processOneH c10State 1 { pid := 42, tstamp := 0, nowMs := 6000 }).1).heap.detAt
          1).bboxRef = 0
    rw [update_statisticsH_detAt,
      processOneH_detAt_bboxRef c10State 1 { pid := 42, tstamp := 0, nowMs := 6000 } h14]
    rfl
  have f5 : (c10Run.1.heap.detAt 4).bboxRef = (c10Run.1.heap.detAt 1).bboxRef := by
    show ((update_statisticsH
        (processOneH c10State 1 { pid := 42, tstamp := 0, nowMs := 6000 }).1).heap.detAt
          c10State.heap.nextAddr).bboxRef
      = ((update_statisticsH
        (processOneH c10State 1 { pid := 42, tstamp := 0, nowMs := 6000 }).1).heap.detAt
          1).bboxRef
    rw [update_statisticsH_detAt]
    exact congrArg DetObj.bboxRef
      (processOneH_detAt_copy c10State 1 { pid := 42, tstamp := 0, nowMs := 6000 } h14)
  have hmref : (c10Mutated.heap.detAt 4).bboxRef = 0 := by
    show (c10Run.1.heap.detAt 4).bboxRef = 0
    rw [f5, f4]
  have hA : c10Mutated.heap.bboxAt ((c10Mutated.heap.detAt 4).bboxRef) = ⟨9, 9, 9, 9⟩ := by
    rw [hmref]
    show setF c10Run.1.heap.bboxAt ((c10Run.1.heap.detAt 1).bboxRef) ⟨9, 9, 9, 9⟩ 0
      = ⟨9, 9, 9, 9⟩
    rw [f4]
    simp [setF]
  have hB : c10Run.1.heap.bboxAt ((c10Run.1.heap.detAt 4).bboxRef) = ⟨1, 2, 3, 4⟩ := by
    rw [f5, f4, f3]
    rfl
  refine ⟨f1, f2, hA, hB, ?_⟩
  intro h
  have h2 := congrArg Prod.snd h
  show False
  rw [show Prod.snd (viewDet c10Mutated 4)
      = c10Mutated.heap.bboxAt ((c10Mutated.heap.detAt 4).bboxRef) from rfl,
    show Prod.snd (viewDet c10Run.1 4)
      = c10Run.1.heap.bboxAt ((c10Run.1.heap.detAt 4).bboxRef) from rfl,
    hA, hB] at h2
  exact absurd h2 (by decide)

/-- C10 (amended): `get_statistics` and `get_settings` return independent
copies (mutating the returned dict leaves the stored one unchanged), and
ingest appends a *shallow* copy of each processed detection to the
history: mutating the returned detection's top-level entries leaves the
stored history entry unchanged, but the nested `bbox` dict is shared
between the returned detection and its history copy, so mutating the
returned detection's bbox is visible through the history entry. -/
theorem claim_C10 (s : HManagerState) (r : Nat) (info : IngestInfo)
    (v : Statistics) (w : Settings) (dv : DetObj)
    (hstats : s.statsRef < s.heap.nextAddr)
    (hsettings : s.settingsRef < s.heap.nextAddr)
    (hr : r < s.heap.nextAddr) :
    ((writeStats (get_statisticsH s).1 (get_statisticsH s).2 v).heap.statsAt s.statsRef
      = s.heap.statsAt s.statsRef) ∧
    ((writeSettings (get_settingsH s).1 (get_settingsH s).2 w).heap.settingsAt s.settingsRef
      = s.heap.settingsAt s.settingsRef) ∧
    ((process_detectionsH s [(r, info)]).2 = [r]) ∧
    (∃ c, (process_detectionsH s [(r, info)]).1.historyRefs
        = dequeAppend 1000 s.historyRefs c ∧
      c ≠ r ∧
      ((writeDet (process_detectionsH s [(r, info)]).1 r dv).heap.detAt c
        = (process_detectionsH s [(r, info)]).1.heap.detAt c) ∧
      (((process_detectionsH s [(r, info)]).1.heap.detAt c).bboxRef
        = ((process_detectionsH s [(r, info)]).1.heap.detAt r).bboxRef) ∧
      (∀ b, (writeBbox (process_detectionsH s [(r, info)]).1
          ((process_detectionsH s [(r, info)]).1.heap.detAt r).bboxRef b).heap.bboxAt
            ((process_detectionsH s [(r, info)]).1.heap.detAt c).bboxRef = b)) := by
  have hne1 : ¬ s.statsRef = s.heap.nextAddr := by omega
  have hne2 : ¬ s.settingsRef = s.heap.nextAddr := by omega
  have hner : r ≠ s.heap.nextAddr := by omega
  refine ⟨?_, ?_, ?_, ?_⟩
  · simp [get_statisticsH, writeStats, setF, hne1]
  · simp [get_settingsH, writeSettings, setF, hne2]
  · show [(processOneH s r info).2] = [r]
    rw [processOneH_snd]
  · refine ⟨s.heap.nextAddr, ?_, Ne.symm hner, ?_, ?_, ?_⟩
    · show (update_statisticsH (processOneH s r info).1).historyRefs = _
      rw [update_statisticsH_historyRefs, processOneH_historyRefs]
    · show setF (update_statisticsH (processOneH s r info).1).heap.detAt r dv
          s.heap.nextAddr
        = (update_statisticsH (processOneH s r info).1).heap.detAt s.heap.nextAddr
      simp [setF, Ne.symm hner]
    · show ((update_statisticsH (processOneH s r info).1).heap.detAt s.heap.nextAddr).bboxRef
        = ((update_statisticsH (processOneH s r info).1).heap.detAt r).bboxRef
      rw [update_statisticsH_detAt, processOneH_detAt_copy s r info hner]
    · intro b
      show setF (update_statisticsH (processOneH s r info).1).heap.bboxAt
          (((update_statisticsH (processOneH s r info).1).heap.detAt r).bboxRef) b
          (((update_statisticsH (processOneH s r info).1).heap.detAt
            s.heap.nextAddr).bboxRef)
        = b
      rw [update_statisticsH_detAt, processOneH_detAt_copy s r info hner]
      simp [setF]

theorem claim_C10_witness :
    ((process_detectionsH c10State
        [(1, { pid := 42, tstamp := 0, nowMs := 6000 })]).2 = [1]) ∧
    ((writeStats (get_statisticsH c10State).1 (get_statisticsH c10State).2
        initialStatistics).heap.statsAt c10State.statsRef
      = c10State.heap.statsAt c10State.statsRef) := by
  obtain ⟨h1, -, h3, -⟩ :=
    claim_C10 c10State 1 { pid := 42, tstamp := 0, nowMs := 6000 }
      initialStatistics defaultSettings ⟨0, 0, 0, false, 0, false⟩
      (by decide) (by decide) (by decide)
  exact ⟨h3, h1⟩

end FaceMask
